import Mathlib

/-!
Shallow embedding of the `conus-cropland-soc` pipeline.

Numeric values are modelled by rationals (`ℚ`); a floating-point NaN /
missing value is modelled by `none` of an `Option` type.  Pandas data
frames are modelled by lists of row structures; a column assignment that
mutates the caller's frame is modelled by returning the updated list
alongside the computed value.
-/

namespace ConusCroplandSoc

/-! ### soil.py -/

/-- A row of the horizon table `soil_df` passed to `calculate_parameter` and
`generate_soil_file` (soil.py).  The `weight` field models the `'weight'`
column, which is absent (`none`) until `calculate_parameter` assigns it. -/
structure SoilRow where
  top : ℚ
  bottom : ℚ
  clay : ℚ
  sand : ℚ
  soc : ℚ
  bulk_density : ℚ
  weight : Option ℚ := none
  deriving Repr, DecidableEq

instance : Inhabited SoilRow := ⟨⟨0, 0, 0, 0, 0, 0, none⟩⟩

/-- The four entries of `SOIL_PARAMETERS` in soil.py. -/
inductive SoilParam where
  | clay
  | sand
  | soc
  | bulk_density
  deriving Repr, DecidableEq

/-- Column lookup `soil_df[parameter]` for one row. -/
def SoilRow.param : SoilRow → SoilParam → ℚ
  | r, .clay => r.clay
  | r, .sand => r.sand
  | r, .soc => r.soc
  | r, .bulk_density => r.bulk_density

/-- soil.py line 30: `max(0.0, min(bottom1, bottom2) - max(top1, top2))`. -/
def overlapping_depth (top1 bottom1 top2 bottom2 : ℚ) : ℚ :=
  max 0 (min bottom1 bottom2 - max top1 top2)

/-- The weight assigned to one horizon row by soil.py line 34:
`overlapping_depth(x['top'], x['bottom'], top, bottom) / (bottom - top)`. -/
def row_weight (top bottom : ℚ) (r : SoilRow) : ℚ :=
  overlapping_depth r.top r.bottom top bottom / (bottom - top)

/-- soil.py line 34: the `'weight'` column assignment for one row. -/
def assign_weight (top bottom : ℚ) (r : SoilRow) : SoilRow :=
  { r with weight := some (row_weight top bottom r) }

/-- soil.py lines 33-37 (`calculate_parameter`).  Returns the horizon table
as it is left in the caller (the `'weight'` column has been assigned on every
row) together with the returned value.  The value is the weighted sum over the
rows with positive weight, divided by the total weight of those rows; when no
row has positive weight the division is `0.0 / 0` in numpy, which yields NaN
(modelled by `none`) rather than raising. -/
def calculate_parameter (soil_df : List SoilRow) (parameter : SoilParam)
    (top bottom : ℚ) : List SoilRow × Option ℚ :=
  let df := soil_df.map (assign_weight top bottom)
  let pos := df.filter (fun r => decide (0 < r.weight.getD 0))
  (df,
    if pos.isEmpty then none
    else some ((pos.map (fun r => r.param parameter * r.weight.getD 0)).sum
        / (pos.map (fun r => r.weight.getD 0)).sum))

/-- Specification-side definition, following §4.5 of the spec word for word:
the depth-weighted average `Σ(property × weight) / Σ(weight)` over exactly the
horizons with positive overlap with `[T, B]`, where the weight of a horizon is
`overlap / (B - T)`. -/
def spec_depth_weighted_average (soil_df : List SoilRow) (parameter : SoilParam)
    (T B : ℚ) : ℚ :=
  let hs := soil_df.filter (fun r => decide (0 < overlapping_depth r.top r.bottom T B))
  (hs.map (fun r => r.param parameter * row_weight T B r)).sum
    / (hs.map (row_weight T B)).sum

lemma overlapping_depth_nonneg (t1 b1 t2 b2 : ℚ) : 0 ≤ overlapping_depth t1 b1 t2 b2 :=
  le_max_left 0 _

lemma div_pos_iff_of_pos_right {a b : ℚ} (hb : 0 < b) : 0 < a / b ↔ 0 < a := by
  constructor
  · intro h
    by_contra hax
    push_neg at hax
    have : a / b ≤ 0 := div_nonpos_of_nonpos_of_nonneg hax hb.le
    exact absurd h (not_lt_of_le this)
  · intro h
    exact div_pos h hb

lemma assign_weight_param (top bottom : ℚ) (r : SoilRow) (p : SoilParam) :
    (assign_weight top bottom r).param p = r.param p := by
  cases p <;> rfl

lemma assign_weight_weight (top bottom : ℚ) (r : SoilRow) :
    (assign_weight top bottom r).weight = some (row_weight top bottom r) := rfl

lemma row_weight_pos_iff {T B : ℚ} (h : T < B) (r : SoilRow) :
    0 < row_weight T B r ↔ 0 < overlapping_depth r.top r.bottom T B := by
  unfold row_weight
  exact div_pos_iff_of_pos_right (sub_pos.mpr h)

/-- The filtered view built on soil.py line 35, pushed through the column
assignment of line 34: it is the image under `assign_weight` of the horizons
with positive overlap. -/
lemma calculate_parameter_filter (soil_df : List SoilRow) (T B : ℚ) (h : T < B) :
    (soil_df.map (assign_weight T B)).filter (fun r => decide (0 < r.weight.getD 0))
      = (soil_df.filter
          (fun r => decide (0 < overlapping_depth r.top r.bottom T B))).map
            (assign_weight T B) := by
  rw [List.filter_map]
  congr 1
  apply List.filter_congr
  intro r _
  simp only [Function.comp_apply, assign_weight_weight, Option.getD_some, decide_eq_decide]
  exact row_weight_pos_iff h r

lemma map_assign_param_mul (soil_df : List SoilRow) (p : SoilParam) (T B : ℚ) :
    (soil_df.map (assign_weight T B)).map (fun r => r.param p * r.weight.getD 0)
      = soil_df.map (fun r => r.param p * row_weight T B r) := by
  rw [List.map_map]
  apply List.map_congr_left
  intro r _
  simp [Function.comp, assign_weight_param, assign_weight_weight]

lemma map_assign_weight_val (soil_df : List SoilRow) (T B : ℚ) :
    (soil_df.map (assign_weight T B)).map (fun r => r.weight.getD 0)
      = soil_df.map (row_weight T B) := by
  rw [List.map_map]
  apply List.map_congr_left
  intro r _
  simp [Function.comp, assign_weight_weight]

/-- C2: for every horizon table, property and target layer `[T, B]` with
`T < B` (and at least one horizon overlapping the layer, so that the average
exists), `calculate_parameter` returns the depth-weighted average
`Σ(p × w) / Σ(w)` over exactly the horizons with positive overlap, with
`w = overlap / (B - T)`; moreover `overlap(0, 0.3, 0.15, 0.6) = 0.15` and
`overlap(0, 0.1, 0.2, 0.3) = 0`. -/
theorem calculate_parameter_depth_weighted_average
    (soil_df : List SoilRow) (p : SoilParam) (T B : ℚ) (hTB : T < B)
    (hov : ∃ r ∈ soil_df, 0 < overlapping_depth r.top r.bottom T B) :
    (calculate_parameter soil_df p T B).2
        = some (spec_depth_weighted_average soil_df p T B)
      ∧ overlapping_depth 0 (3/10) (3/20) (3/5) = 3/20
      ∧ overlapping_depth 0 (1/10) (1/5) (3/10) = 0 := by
  refine ⟨?_, by norm_num [overlapping_depth], by norm_num [overlapping_depth]⟩
  obtain ⟨r0, hr0, hpos⟩ := hov
  have hmem : r0 ∈ soil_df.filter
      (fun r => decide (0 < overlapping_depth r.top r.bottom T B)) :=
    List.mem_filter.mpr ⟨hr0, by simpa using hpos⟩
  unfold calculate_parameter
  simp only [calculate_parameter_filter soil_df T B hTB]
  rw [if_neg]
  · rw [map_assign_param_mul, map_assign_weight_val]
    rfl
  · intro hemp
    rw [List.isEmpty_iff] at hemp
    have := List.map_eq_nil_iff.mp hemp
    rw [this] at hmem
    exact absurd hmem (List.not_mem_nil r0)

/-- Witness for C2 at a one-horizon table and the layer `[0, 0.3]`. -/
theorem calculate_parameter_depth_weighted_average_witness :
    (calculate_parameter [⟨0, 1/2, 10, 20, 2, 3/2, none⟩] SoilParam.soc 0 (3/10)).2
        = some (spec_depth_weighted_average [⟨0, 1/2, 10, 20, 2, 3/2, none⟩]
            SoilParam.soc 0 (3/10)) :=
  (calculate_parameter_depth_weighted_average [⟨0, 1/2, 10, 20, 2, 3/2, none⟩]
    SoilParam.soc 0 (3/10) (by norm_num)
    ⟨⟨0, 1/2, 10, 20, 2, 3/2, none⟩, by simp, by norm_num [overlapping_depth]⟩).1

/-- C8: when no horizon has positive overlap with the target layer `[T, B]`
(total weight zero), `calculate_parameter` returns the missing value `none`
(the NaN that numpy's `0.0 / 0` produces) instead of raising an error. -/
theorem calculate_parameter_no_overlap_missing
    (soil_df : List SoilRow) (p : SoilParam) (T B : ℚ) (hTB : T < B)
    (hov : ∀ r ∈ soil_df, ¬ 0 < overlapping_depth r.top r.bottom T B) :
    (calculate_parameter soil_df p T B).2 = none := by
  unfold calculate_parameter
  simp only [calculate_parameter_filter soil_df T B hTB]
  rw [if_pos]
  rw [List.isEmpty_iff, List.map_eq_nil_iff, List.filter_eq_nil_iff]
  intro r hr
  simpa using hov r hr

/-- Witness for C8: a single horizon strictly below the target layer. -/
theorem calculate_parameter_no_overlap_missing_witness :
    (calculate_parameter [⟨2/5, 3/5, 10, 20, 2, 3/2, none⟩] SoilParam.clay 0 (3/10)).2
      = none := by
  apply calculate_parameter_no_overlap_missing _ _ _ _ (by norm_num)
  intro r hr
  simp only [List.mem_singleton] at hr
  subst hr
  norm_num [overlapping_depth]

/-- C10: `calculate_parameter`'s only effect on the caller's horizon table is
to (over)write the `'weight'` column: the table it leaves behind has exactly
the rows of the input in order (in particular the same row count, on which
the later `TOTAL_LAYERS` line depends), and each row agrees with the input row
on every other column while its `weight` holds the freshly computed value. -/
theorem calculate_parameter_frame
    (soil_df : List SoilRow) (p : SoilParam) (T B : ℚ) :
    ((calculate_parameter soil_df p T B).1.length = soil_df.length)
      ∧ ∀ i : ℕ, (calculate_parameter soil_df p T B).1.get? i
          = (soil_df.get? i).map
              (fun r => { r with weight := some (row_weight T B r) }) := by
  constructor
  · simp [calculate_parameter]
  · intro i
    simp only [calculate_parameter, List.get?_eq_getElem?, List.getElem?_map]
    rfl

/-- An entry of the fixed standard layer table `SOIL_LAYERS`
(soil.py lines 5-19 / settings.py lines 15-29). -/
structure SoilLayer where
  top : ℚ
  bottom : ℚ
  thickness : ℚ
  no3 : ℚ
  nh4 : ℚ
  deriving Repr, DecidableEq

/-- The fixed standard soil-layer table (soil.py lines 5-19). -/
def SOIL_LAYERS : List SoilLayer :=
  [⟨0, 1/20, 1/20, 10, 1⟩,
   ⟨1/20, 1/10, 1/20, 10, 1⟩,
   ⟨1/10, 1/5, 1/10, 7, 1⟩,
   ⟨1/5, 2/5, 1/5, 4, 1⟩,
   ⟨2/5, 3/5, 1/5, 2, 1⟩,
   ⟨3/5, 4/5, 1/5, 1, 1⟩,
   ⟨4/5, 1, 1/5, 1, 1⟩,
   ⟨1, 6/5, 1/5, 1, 1⟩,
   ⟨6/5, 7/5, 1/5, 1, 1⟩,
   ⟨7/5, 8/5, 1/5, 1, 1⟩,
   ⟨8/5, 9/5, 1/5, 1, 1⟩,
   ⟨9/5, 2, 1/5, 1, 1⟩]

/-- `CURVE_NUMBERS` (soil.py lines 21-27), keyed by the first letter of the
hydrologic soil group; `none` models the `KeyError` of a letter outside A-D. -/
def CURVE_NUMBERS : Char → Option ℤ
  | 'A' => some 67
  | 'B' => some 78
  | 'C' => some 85
  | 'D' => some 89
  | _ => none

/-- One per-layer data row written by the loop of soil.py lines 77-88.
A parameter value of `none` models a NaN, printed as the `-999` sentinel. -/
structure DataRow where
  layer : ℕ
  thickness : ℚ
  clay : Option ℚ
  sand : Option ℚ
  soc : Option ℚ
  bulk_density : Option ℚ
  no3 : ℚ
  nh4 : ℚ
  deriving Repr, DecidableEq

/-- The numeric content of a generated soil profile file: the `CURVE_NUMBER`
value, the integer written on the `TOTAL_LAYERS` line, and the per-layer data
rows.  The free-text header lines of soil.py lines 51-64 carry no data used by
any claim and are not modelled. -/
structure SoilFile where
  curve_number : Option ℤ
  total_layers : ℕ
  rows : List DataRow
  deriving Repr, DecidableEq

/-- The data row that soil.py lines 78-88 write for the `df` row built from
standard layer `l` (1-based index `idx + 1`); the four parameter columns were
filled by `calculate_parameter` on soil.py line 46. -/
def layer_row (soil_df : List SoilRow) (idx : ℕ) (l : SoilLayer) : DataRow :=
  { layer := idx + 1
    thickness := l.thickness
    clay := (calculate_parameter soil_df .clay l.top l.bottom).2
    sand := (calculate_parameter soil_df .sand l.top l.bottom).2
    soc := (calculate_parameter soil_df .soc l.top l.bottom).2
    bulk_density := (calculate_parameter soil_df .bulk_density l.top l.bottom).2
    no3 := l.no3
    nh4 := l.nh4 }

/-- soil.py lines 40-88 (`generate_soil_file`), restricted to its numeric
output.  `df` holds one row per standard layer with `bottom <= soil_depth`
(line 42); the `TOTAL_LAYERS` line prints `len(soil_df)` — the length of the
horizon table argument, whose row count the `calculate_parameter` calls leave
unchanged — while the data rows written afterwards are the rows of `df`
(lines 68 and 77-88). -/
def generate_soil_file (hsg : String) (soil_depth : ℚ) (soil_df : List SoilRow) :
    SoilFile :=
  let df := SOIL_LAYERS.filter (fun l => decide (l.bottom ≤ soil_depth))
  { curve_number := if hsg = "" then some (-999) else CURVE_NUMBERS hsg.front
    total_layers := soil_df.length
    rows := df.enum.map (fun rl => layer_row soil_df rl.1 rl.2) }

/-- A three-horizon table (depths 0-0.1, 0.1-0.3, 0.3-0.5 m). -/
def three_horizons : List SoilRow :=
  [⟨0, 1/10, 10, 30, 2, 3/2, none⟩,
   ⟨1/10, 3/10, 12, 28, 1, 3/2, none⟩,
   ⟨3/10, 1/2, 15, 25, 1/2, 8/5, none⟩]

/-- C4 (failing input): generating a soil file from a three-horizon table with
computed soil depth 0.1 m writes `TOTAL_LAYERS 3` — `len(soil_df)`, the row
count of the horizon table — but then writes only 2 per-layer data rows (the
standard layers with bottom ≤ 0.1 m), so the integer on the `TOTAL_LAYERS`
line differs from the number of data rows. -/
theorem total_layers_differs_from_row_count :
    (generate_soil_file "" (1/10) three_horizons).total_layers = 3
      ∧ (generate_soil_file "" (1/10) three_horizons).rows.length = 2
      ∧ (3 : ℕ) ≠ 2 := by
  refine ⟨rfl, ?_, by decide⟩
  norm_num [generate_soil_file, SOIL_LAYERS, List.filter]

/-- Python's `min(l, key=key)` on a list of rationals: the first element whose
key is minimal (`min` replaces the running best only on a strictly smaller
key); `none` on an empty list (where Python raises `ValueError`). -/
def min_by_key (key : ℚ → ℚ) : List ℚ → Option ℚ
  | [] => none
  | x :: xs => some (xs.foldl (fun best y => if key y < key best then y else best) x)

lemma foldl_choose_mem (key : ℚ → ℚ) (xs : List ℚ) (x : ℚ) :
    xs.foldl (fun best y => if key y < key best then y else best) x ∈ x :: xs := by
  induction xs generalizing x with
  | nil => simp
  | cons y ys ih =>
    simp only [List.foldl_cons]
    have h := ih (if key y < key x then y else x)
    rw [List.mem_cons] at h ⊢
    rcases h with h | h
    · rw [h]
      split
      · simp
      · simp
    · right
      exact List.mem_cons_of_mem y h

lemma foldl_choose_le (key : ℚ → ℚ) (xs : List ℚ) (x : ℚ) :
    ∀ z ∈ x :: xs,
      key (xs.foldl (fun best y => if key y < key best then y else best) x) ≤ key z := by
  induction xs generalizing x with
  | nil =>
    intro z hz
    rw [List.mem_cons] at hz
    rcases hz with rfl | hz
    · simp
    · exact absurd hz (List.not_mem_nil z)
  | cons y ys ih =>
    intro z hz
    simp only [List.foldl_cons]
    have hbx : key (if key y < key x then y else x) ≤ key x := by
      split
      · next hlt => exact le_of_lt hlt
      · exact le_refl _
    have hby : key (if key y < key x then y else x) ≤ key y := by
      split
      · exact le_refl _
      · next hlt => exact le_of_not_lt hlt
    rw [List.mem_cons] at hz
    rcases hz with rfl | hz
    · exact le_trans (ih _ _ (List.mem_cons_self _ _)) hbx
    · rw [List.mem_cons] at hz
      rcases hz with rfl | hz
      · exact le_trans (ih _ _ (List.mem_cons_self _ _)) hby
      · exact ih _ z (List.mem_cons_of_mem _ hz)

/-- generate_soil_files.py line 170: the bottoms of the standard layers. -/
def layer_depths : List ℚ := SOIL_LAYERS.map (fun l => l.bottom)

/-- generate_soil_files.py line 171:
`min(layer_depths, key=lambda x: abs(x - bottom))` applied to the bottom depth
of the deepest horizon of the selected stack. -/
def calculate_soil_depth (bottom : ℚ) : Option ℚ :=
  min_by_key (fun x => |x - bottom|) layer_depths

/-- Specification-side definition, following the spec's words for C5: the
horizon stack's bottom depth "rounded down to nearest standard layer
boundary", i.e. the greatest standard boundary not exceeding it. -/
def spec_round_down_depth (bottom : ℚ) : Option ℚ :=
  (layer_depths.filter (fun x => decide (x ≤ bottom))).max?

lemma min_by_key_spec (key : ℚ → ℚ) (x : ℚ) (xs : List ℚ) :
    ∃ d, min_by_key key (x :: xs) = some d ∧ d ∈ x :: xs
      ∧ ∀ z ∈ x :: xs, key d ≤ key z :=
  ⟨_, rfl, foldl_choose_mem key xs x, foldl_choose_le key xs x⟩

/-- C5 (counterexample): for a horizon stack whose deepest bottom is 0.19 m,
the code computes soil depth 0.2 m — the nearest standard boundary, which lies
above 0.19 m — while rounding down to the nearest standard boundary would give
0.1 m.  The claim as stated is therefore false. -/
theorem soil_depth_rounds_to_nearest_not_down :
    calculate_soil_depth (19/100) = some (1/5)
      ∧ spec_round_down_depth (19/100) = some (1/10)
      ∧ calculate_soil_depth (19/100) ≠ spec_round_down_depth (19/100) := by
  have h1 : calculate_soil_depth (19/100) = some (1/5) := by
    norm_num [calculate_soil_depth, min_by_key, layer_depths, SOIL_LAYERS,
      List.foldl, abs]
  have h2 : spec_round_down_depth (19/100) = some (1/10) := by
    norm_num [spec_round_down_depth, layer_depths, SOIL_LAYERS, List.filter,
      List.max?, List.foldl, max_def]
  refine ⟨h1, h2, ?_⟩
  rw [h1, h2]
  intro hc
  rw [Option.some_inj] at hc
  norm_num at hc

/-- C5 (amended): the computed total soil depth is the standard layer boundary
nearest in absolute difference to the stack's deepest horizon bottom (the
earliest boundary winning ties), which may round up as well as down. -/
theorem calculate_soil_depth_nearest_boundary (b : ℚ) :
    ∃ d, calculate_soil_depth b = some d ∧ d ∈ layer_depths
      ∧ ∀ x ∈ layer_depths, |d - b| ≤ |x - b| := by
  have h : layer_depths
      = (1/20 : ℚ) :: [1/10, 1/5, 2/5, 3/5, 4/5, 1, 6/5, 7/5, 8/5, 9/5, 2] := by
    simp [layer_depths, SOIL_LAYERS]
  rw [calculate_soil_depth, h]
  exact min_by_key_spec _ _ _

/-- Witness for C5's amended theorem at bottom depth 0.19 m. -/
theorem calculate_soil_depth_nearest_boundary_witness :
    ∃ d, calculate_soil_depth (19/100) = some d ∧ d ∈ layer_depths
      ∧ ∀ x ∈ layer_depths, |d - 19/100| ≤ |x - 19/100| :=
  calculate_soil_depth_nearest_boundary (19/100)

/-! ### generate_soil_files.py: point filtering and horizon selection -/

/-- A cropland pixel point after the left spatial join against the soil
polygons (generate_soil_files.py line 142).  `none` fields model the NaN
attributes of a point that fell in no polygon. -/
structure JoinedPoint where
  muname : Option String
  mukey : Option ℤ
  deriving Repr, DecidableEq

/-- settings.py line 41 — the exact-match list actually imported and used by
generate_soil_files.py. -/
def GSSURGO_NON_SOIL_TYPES : List String := ["Water", "Pits", "Dam", "Dumps", "Levee"]

/-- gssurgo.py lines 23-26 — defined in the repository but never imported by
generate_soil_files.py. -/
def GSSURGO_URBAN_TYPES : List String := ["Udorthents", "Urban land"]

/-- Pandas `df['muname'].isin(l)` for one row: a NaN name is in no list. -/
def muname_isin (p : JoinedPoint) (l : List String) : Bool :=
  match p.muname with
  | some n => l.contains n
  | none => false

/-- generate_soil_files.py lines 143-144: drop points whose map unit name is
in the exact-match non-soil list, then drop points with a missing map unit
key.  These are the only point filters applied before slope, hydrologic group
and the dominant map unit are computed. -/
def filter_soil_points (pts : List JoinedPoint) : List JoinedPoint :=
  (pts.filter (fun p => !(muname_isin p GSSURGO_NON_SOIL_TYPES))).filter
    (fun p => p.mukey.isSome)

/-- C6 (counterexample): a joined point named "Urban land" — a name on the
urban-type substring list — survives the filtering untouched, so the claim
that the urban-substring filter rule is applied is false. -/
theorem urban_named_point_not_removed :
    filter_soil_points [⟨some "Urban land", some 1⟩] = [⟨some "Urban land", some 1⟩]
      ∧ "Urban land" ∈ GSSURGO_URBAN_TYPES := by
  constructor
  · rfl
  · simp [GSSURGO_URBAN_TYPES]

/-- C6 (amended): before slope, hydrologic group and the dominant map unit
are computed, exactly those joined points survive whose map unit name is not
in the configured exact-match non-soil list and whose map unit key is present;
no urban-substring filter is applied in this pipeline. -/
theorem filter_soil_points_exact_match_only (pts : List JoinedPoint) (p : JoinedPoint) :
    p ∈ filter_soil_points pts
      ↔ p ∈ pts ∧ muname_isin p GSSURGO_NON_SOIL_TYPES = false
          ∧ p.mukey.isSome = true := by
  simp only [filter_soil_points, List.mem_filter, Bool.not_eq_true']
  tauto

/-- A merged component/horizon row of the dominant map unit
(generate_soil_files.py line 165). -/
structure ComponentHorizon where
  majcompflag : String
  hzname : String
  top : ℚ
  bottom : ℚ
  deriving Repr, DecidableEq

/-- Insertion step of the sort by the `'top'` column. -/
def insert_by_top (r : ComponentHorizon) : List ComponentHorizon → List ComponentHorizon
  | [] => [r]
  | x :: xs => if r.top < x.top then r :: x :: xs else x :: insert_by_top r xs

/-- `sort_values(by='top')` of generate_soil_files.py line 166 (the relative
order of rows with equal `top` is unspecified by pandas' default quicksort;
any reordering keeps the claims below intact). -/
def sort_by_top (l : List ComponentHorizon) : List ComponentHorizon :=
  l.foldr insert_by_top []

/-- generate_soil_files.py lines 166-167: keep exactly the rows flagged
`majcompflag == 'Yes'`, sort them by horizon top, then drop bedrock rows
(`hzname == 'R'`). -/
def select_horizons (rows : List ComponentHorizon) : List ComponentHorizon :=
  (sort_by_top (rows.filter (fun r => decide (r.majcompflag = "Yes")))).filter
    (fun r => decide (r.hzname ≠ "R"))

lemma mem_insert_by_top (a r : ComponentHorizon) (l : List ComponentHorizon) :
    a ∈ insert_by_top r l ↔ a = r ∨ a ∈ l := by
  induction l with
  | nil => simp [insert_by_top]
  | cons x xs ih =>
    rw [insert_by_top]
    split
    · simp
    · rw [List.mem_cons, ih, List.mem_cons]
      tauto

lemma mem_sort_by_top (a : ComponentHorizon) (l : List ComponentHorizon) :
    a ∈ sort_by_top l ↔ a ∈ l := by
  induction l with
  | nil => simp [sort_by_top]
  | cons x xs ih =>
    rw [sort_by_top, List.foldr_cons]
    rw [mem_insert_by_top]
    rw [List.mem_cons]
    rw [← ih]
    rfl

/-- C7 (amended): the horizon stack retrieved for the dominant map unit keeps
only horizons of components flagged as the major component; when no component
carries the flag, the stack comes out empty — there is no fallback to the
unfiltered horizons. -/
theorem select_horizons_major_only (rows : List ComponentHorizon) :
    (∀ r ∈ select_horizons rows, r.majcompflag = "Yes")
      ∧ ((∀ r ∈ rows, r.majcompflag ≠ "Yes") → select_horizons rows = []) := by
  constructor
  · intro r hr
    rw [select_horizons, List.mem_filter, mem_sort_by_top, List.mem_filter] at hr
    have := hr.1.2
    simpa using this
  · intro h
    rw [select_horizons]
    have hnil : rows.filter (fun r => decide (r.majcompflag = "Yes")) = [] := by
      rw [List.filter_eq_nil_iff]
      intro r hr
      simpa using h r hr
    rw [hnil]
    rfl

/-- Witness for C7's amended theorem on a one-row table with no major flag. -/
theorem select_horizons_major_only_witness :
    select_horizons [⟨"No", "H2", 0, 1⟩] = [] := by
  apply (select_horizons_major_only [⟨"No", "H2", 0, 1⟩]).2
  intro r hr
  rw [List.mem_singleton] at hr
  rw [hr]
  simp

/-- C7 (counterexample): for a dominant unit whose only component is not
flagged major, the code produces an empty horizon stack instead of falling
back to all of the unit's horizons unfiltered. -/
theorem no_major_component_yields_empty_stack :
    select_horizons [⟨"No", "H1", 0, 1/2⟩] = []
      ∧ ([⟨"No", "H1", 0, 1/2⟩] : List ComponentHorizon) ≠ [] := by
  constructor
  · rfl
  · simp

/-! ### calculate_cropland_soc.py: zonal aggregation -/

/-- calculate_cropland_soc.py line 24. -/
def MIN_REPORT_AREA : ℚ := 10

/-- One row of the merged per-pixel table of calculate_cropland_soc.py
line 106: land-use code, the pixel's per-row grid area, and the
`soc_weight_{layer}` columns (one `Option ℚ` per configured layer;
`none` models a NaN from missing SoilGrids data). -/
structure LuPixel where
  lu : ℤ
  area_ha : ℚ
  soc_weights : List (Option ℚ)
  deriving Repr, DecidableEq

/-- calculate_cropland_soc.py lines 76-77: per-pixel, per-layer SOC weight. -/
def soc_weight (bulk_density soc_percent thickness_meter : ℚ) : ℚ :=
  soc_percent * (1/100) * thickness_meter * bulk_density * 10000

/-- The `soc_weight_0-30cm` column (line 111): sum of the per-layer weights
with `skipna=False`, hence missing whenever any layer value is missing. -/
def total_soc_weight (p : LuPixel) : Option ℚ :=
  if none ∈ p.soc_weights then none else some p.soc_weights.reduceOption.sum

/-- Line 115: summed area of the pixels whose land-use code belongs to the
type's code list. -/
def lu_area (df : List LuPixel) (codes : List ℤ) : ℚ :=
  ((df.filter (fun p => codes.contains p.lu)).map (fun p => p.area_ha)).sum

/-- Line 116: `area if area > MIN_REPORT_AREA else 0.0`. -/
def reported_area (df : List LuPixel) (codes : List ℤ) : ℚ :=
  if MIN_REPORT_AREA < lu_area df codes then lu_area df codes else 0

/-- The three reducers of the `FUNCS` table (lines 19-23). -/
inductive StatFunc where
  | mean
  | max
  | min
  deriving Repr, DecidableEq

/-- Pandas `Series.mean/max/min` with the default `skipna=True`: missing
entries are dropped, and the reduction of an all-missing or empty series is
itself missing. -/
def statEval : StatFunc → List (Option ℚ) → Option ℚ
  | f, vals =>
    match vals.reduceOption with
    | [] => none
    | x :: xs =>
      some (match f with
        | .mean => (x :: xs).sum / (x :: xs).length
        | .max => xs.foldl Max.max x
        | .min => xs.foldl Min.min x)

/-- Line 119-121: the statistic for one land-use type and one
`soc_weight_{layer}` column (`sel` selects the column, covering each
configured layer and the 0-30cm total): NaN when the type has no pixels or
its reported area is zero, otherwise the reducer applied to the column. -/
def soc_stat (df : List LuPixel) (codes : List ℤ) (sel : LuPixel → Option ℚ)
    (f : StatFunc) : Option ℚ :=
  let sub := (df.filter (fun p => codes.contains p.lu)).map sel
  if sub.isEmpty ∨ reported_area df codes = 0 then none else statEval f sub

/-- C1: whenever a land-use type's reported area is zero — whether suppressed
below the minimum-report threshold or because no pixels of the type exist —
every SOC statistic for that type (any reducer, any layer column including
the 0-30cm total) is reported as the missing value `none`, never as zero and
never as a computed number. -/
theorem soc_stats_missing_when_area_zero
    (df : List LuPixel) (codes : List ℤ) (sel : LuPixel → Option ℚ)
    (f : StatFunc) (h : reported_area df codes = 0) :
    soc_stat df codes sel f = none := by
  simp only [soc_stat]
  rw [if_pos (Or.inr h)]

/-- Witness for C1: one rainfed pixel of 5 ha (below the 10 ha threshold, so
the reported area is 0) with a present SOC value; the mean over the 0-30cm
total column is still missing. -/
theorem soc_stats_missing_when_area_zero_witness :
    soc_stat [⟨3, 5, [some 2]⟩] [3] total_soc_weight StatFunc.mean = none := by
  apply soc_stats_missing_when_area_zero
  norm_num [reported_area, lu_area, MIN_REPORT_AREA, List.filter]

/-- C3 (counterexample): a single rainfed pixel whose area sums to exactly
10 ha is suppressed to a reported area of 0.0 — the strict comparison
`area > MIN_REPORT_AREA` treats the threshold itself as unreportable,
contradicting the claim that exactly 10 ha is reported as 10 ha. -/
theorem area_exactly_ten_suppressed :
    lu_area [⟨3, 10, []⟩] [3] = 10
      ∧ reported_area [⟨3, 10, []⟩] [3] = 0
      ∧ (10 : ℚ) ≠ 0 := by
  refine ⟨?_, ?_, by norm_num⟩
  · norm_num [lu_area, List.filter]
  · norm_num [reported_area, lu_area, MIN_REPORT_AREA, List.filter]

/-- C3 (amended): the reported cropland area equals the summed pixel area
when that sum strictly exceeds the 10 ha threshold, and 0.0 when the sum is
at or below the threshold; a sum of exactly 10 ha is suppressed to zero. -/
theorem reported_area_strict_threshold (df : List LuPixel) (codes : List ℤ) :
    (MIN_REPORT_AREA < lu_area df codes
        → reported_area df codes = lu_area df codes)
      ∧ (lu_area df codes ≤ MIN_REPORT_AREA → reported_area df codes = 0) := by
  constructor
  · intro h
    rw [reported_area, if_pos h]
  · intro h
    rw [reported_area, if_neg (not_lt_of_le h)]

/-- Witness for C3's amended theorem: a 10 ha sum is suppressed, an 11 ha sum
is reported as is. -/
theorem reported_area_strict_threshold_witness :
    reported_area [⟨3, 10, []⟩] [3] = 0
      ∧ reported_area [⟨2, 11, []⟩] [2] = 11 := by
  constructor
  · apply (reported_area_strict_threshold [⟨3, 10, []⟩] [3]).2
    norm_num [lu_area, MIN_REPORT_AREA, List.filter]
  · have h := (reported_area_strict_threshold [⟨2, 11, []⟩] [2]).1
      (by norm_num [lu_area, MIN_REPORT_AREA, List.filter])
    rw [h]
    norm_num [lu_area, List.filter]

/-! ### generate_soil_files.py line 98: map unit name truncation -/

/-- Python `name.split(',')[0]`: the prefix of the name before its first
comma (the whole name when it has no comma). -/
def truncate_muname (name : String) : String :=
  String.mk (name.toList.takeWhile (fun c => !(c == ',')))

/-- generate_soil_files.py line 98, seen through the merge of line 101: the
map unit name carried by every joined point is the truncated one. -/
def point_munames (raw : List String) : List String := raw.map truncate_muname

/-- generate_soil_files.py line 143 restricted to the name column: the exact
non-soil filter is applied to the truncated names. -/
def filtered_point_munames (raw : List String) : List String :=
  (point_munames raw).filter (fun n => !(GSSURGO_NON_SOIL_TYPES.contains n))

/-- Code-point-wise lexicographic strict comparison of character lists, the
order Python's `<` puts on strings. -/
def char_list_ltb : List Char → List Char → Bool
  | _, [] => false
  | [], _ :: _ => true
  | a :: as, b :: bs =>
    if a.toNat < b.toNat then true
    else if b.toNat < a.toNat then false
    else char_list_ltb as bs

/-- Python's lexicographic `<` on strings. -/
def str_ltb (a b : String) : Bool := char_list_ltb a.toList b.toList

/-- Pandas `Series.mode()[0]`: the least (in lexicographic string order)
among the values of maximal count; `none` for an empty series (where the
code's bare `[0]` indexing would raise). -/
def mode_first (l : List String) : Option String :=
  match l.filter (fun s => l.all (fun t => decide (l.count t ≤ l.count s))) with
  | [] => none
  | x :: xs => some (xs.foldl (fun m s => if str_ltb s m then s else m) x)

/-- generate_soil_files.py line 160: the dominant map unit name — the mode of
the surviving points' (truncated) names; this same name is what line 161
selects by and what the soil-file header later prints as MUNAME. -/
def dominant_muname (raw : List String) : Option String :=
  mode_first (filtered_point_munames raw)

lemma count_map_eq_length_filter (f : String → String) (l : List String) (a : String) :
    (l.map f).count (f a) = (l.filter (fun x => f x == f a)).length := by
  induction l with
  | nil => rfl
  | cons x xs ih =>
    simp only [List.map_cons, List.count_cons, List.filter_cons]
    rw [ih]
    by_cases h : f x = f a
    · simp [h]
    · have h' : ¬ f a = f x := fun hc => h hc.symm
      simp [h, h']

/-- C9: every map unit name is truncated at its first comma before any use.
The pooling this induces is exact: every count feeding the mode pools all raw
names sharing the same pre-comma prefix (first conjunct); concretely, three
map units "Alpha, …" with distinct slope phrases outvote two "Beta" points
and are selected as the single dominant unit "Alpha", although on the raw
untruncated names "Beta" would win (second and third conjuncts); and the
exact-match non-soil filter likewise sees the truncated name, so
"Water, occasionally flooded" is filtered out as "Water" (last conjunct). -/
theorem muname_truncated_before_use :
    (∀ (raw : List String) (s : String),
        (point_munames raw).count (truncate_muname s)
          = (raw.filter (fun n => truncate_muname n == truncate_muname s)).length)
      ∧ dominant_muname ["Alpha, 2 to 5 percent slopes",
          "Alpha, 5 to 9 percent slopes", "Alpha, 9 to 15 percent slopes",
          "Beta", "Beta"] = some "Alpha"
      ∧ mode_first ["Alpha, 2 to 5 percent slopes",
          "Alpha, 5 to 9 percent slopes", "Alpha, 9 to 15 percent slopes",
          "Beta", "Beta"] = some "Beta"
      ∧ filtered_point_munames ["Water, occasionally flooded"] = [] := by
  refine ⟨?_, by decide, by decide, by decide⟩
  intro raw s
  exact count_map_eq_length_filter truncate_muname raw s

end ConusCroplandSoc
